import Mathlib

/-!
Shallow embedding of the form-state hook in `src/lib/useForm.ts`
(the `useForm` function) and proofs of the specification's claims
about it.

JavaScript field values (`FormFieldValue`) are modelled by `JSValue`;
`File`/`FileList` handles are not modelled since no verified property
touches them.  JavaScript objects (`Record<string, ...>`) are modelled
by association lists with first-match lookup; writing a property is
modelled by consing a shadowing entry, so lookup agrees with the
source's property-access semantics.
-/

inductive JSPrim where
  | pStr (s : String)
  | pNum (n : Int)
deriving DecidableEq, Repr

inductive JSValue where
  | vStr (s : String)
  | vNum (n : Int)
  | vBool (b : Bool)
  | vArr (elems : List JSPrim)
  | vNull
  | vUndefined
deriving DecidableEq, Repr

/-- An object: association list, earlier entries shadow later ones. -/
abbrev Obj : Type := List (String × JSValue)

/-- Property lookup; `none` means the property is absent. -/
def Obj.lookup : Obj → String → Option JSValue
  | [], _ => none
  | (k, v) :: rest, key => if k = key then some v else Obj.lookup rest key

/-- JavaScript member access `o[k]`: an absent property reads as `undefined`. -/
def Obj.get (o : Obj) (k : String) : JSValue :=
  (o.lookup k).getD .vUndefined

/-- Property write `o[k] = v` (equivalently the overriding entry of a spread). -/
def Obj.set (o : Obj) (k : String) (v : JSValue) : Obj :=
  (k, v) :: o

/-- Spread merge `\x7b...a, ...b\x7d`: properties of `b` win. -/
def Obj.merge (a b : Obj) : Obj :=
  b ++ a

/-- The `in` operator / `hasOwnProperty`. -/
def Obj.hasKey (o : Obj) (k : String) : Bool :=
  (o.lookup k).isSome

/-- Adding an element to a JS `Set` (modelled as a duplicate-free list). -/
def addKey (k : String) (l : List String) : List String :=
  if k ∈ l then l else l ++ [k]

/-- Error maps `Partial<Record<keyof T, string>>` as association lists. -/
abbrev ErrMap : Type := List (String × String)

def errLookup : ErrMap → String → Option String
  | [], _ => none
  | (k, v) :: rest, key => if k = key then some v else errLookup rest key

/-- The configuration passed to `useForm`: `defaultValues`, the optional
`validator` and the `controlled` flag (`debug` has no state effect). -/
structure FormConfig where
  defaultValues : Obj
  validator : Option (Obj → ErrMap)
  controlled : Bool

/-- The hook's mutable state: `values` (React state store), `formRef`
(plain ref cell), `modifiedFieldsRef`, `registeredFieldsRef`, `errors`,
`touched` (keys whose flag was set true) and `isDirty`. -/
structure FormState where
  valuesState : Obj
  formRef : Obj
  modified : List String
  registered : List String
  errors : ErrMap
  touched : List String
  isDirty : Bool
deriving DecidableEq

/-- All state cells start empty / false. -/
def initState : FormState :=
  { valuesState := [], formRef := [], modified := [], registered := [],
    errors := [], touched := [], isDirty := false }

/-- The live raw store: `controlled ? values : formRef.current`. -/
def rawStore (c : FormConfig) (s : FormState) : Obj :=
  if c.controlled then s.valuesState else s.formRef

/-- The merge step of `getCurrentValues`: `result[key] = currentFormValues[key]`
for each modified key, starting from the spread of defaults and raw store. -/
def mergeModified (raw : Obj) (modified : List String) (base : Obj) : Obj :=
  modified.foldl (fun res key => res.set key (raw.get key)) base

/-- Source `getCurrentValues`: spread defaults then the raw store, then
overwrite every modified key with its raw-store value (possibly `undefined`). -/
def getCurrentValues (c : FormConfig) (s : FormState) : Obj :=
  mergeModified (rawStore c s) s.modified (Obj.merge c.defaultValues (rawStore c s))

/-- Source `updateFormValue`: mark modified, write the value into the live
store, set the dirty flag. -/
def updateFormValue (c : FormConfig) (name : String) (value : JSValue)
    (s : FormState) : FormState :=
  let s1 := { s with modified := addKey name s.modified }
  let s2 :=
    if c.controlled then { s1 with valuesState := s1.valuesState.set name value }
    else { s1 with formRef := s1.formRef.set name value }
  { s2 with isDirty := true }

/-- Source `setValue`: delegates to `updateFormValue`. -/
def setValue (c : FormConfig) (name : String) (value : JSValue)
    (s : FormState) : FormState :=
  updateFormValue c name value s

/-- Source `validate`: trivially true with no validator; otherwise run the
validator on the merged snapshot, store its result wholesale as `errors`,
and return whether the result map is empty. -/
def validateRun (c : FormConfig) (s : FormState) : FormState × Bool :=
  match c.validator with
  | none => (s, true)
  | some f =>
    let validationErrors := f (getCurrentValues c s)
    ({ s with errors := validationErrors }, validationErrors.isEmpty)

/-- `Array.isArray` as used by the checkbox branch. -/
def isArray : JSValue → Bool
  | .vArr _ => true
  | _ => false

/-- A change notification: either a direct value from a custom component
(the non-event branch of `handleInputChange`) or a native change event
summarised by the input type and the payload the source reads off the
target element. -/
inductive InputEvent where
  | direct (v : JSValue)
  | checkbox (value : String) (checked : Bool)
  | radio (value : String)
  | selectMultiple (selectedOptions : List String)
  | textLike (value : String)

/-- The checkbox branch of `handleInputChange`: group semantics when the
default or current value is an array (copy the current array, else the
default array, else start empty; on check push the token unless already
included; on uncheck filter out every matching token), scalar boolean
semantics otherwise.  `s1` is the state after the field was already added
to the modified set, exactly as in the source. -/
def checkboxNewValue (c : FormConfig) (s1 : FormState) (name : String)
    (v : String) (checked : Bool) : JSValue :=
  let currentFieldValue := Obj.get (getCurrentValues c s1) name
  let defaultValue := Obj.get c.defaultValues name
  if isArray defaultValue || isArray currentFieldValue then
    let currentArray : List JSPrim :=
      match currentFieldValue with
      | .vArr l => l
      | _ =>
        match defaultValue with
        | .vArr l => l
        | _ => []
    let newArray : List JSPrim :=
      if checked then
        if JSPrim.pStr v ∈ currentArray then currentArray
        else currentArray ++ [JSPrim.pStr v]
      else currentArray.filter (fun x => x ≠ JSPrim.pStr v)
    .vArr newArray
  else .vBool checked

/-- Source `handleInputChange`: add the key to the modified set, extract
the semantic value according to the input type (or use a direct value
verbatim), then write it through `updateFormValue`. -/
def handleInputChange (c : FormConfig) (name : String) (e : InputEvent)
    (s : FormState) : FormState :=
  let s1 := { s with modified := addKey name s.modified }
  match e with
  | .direct v => updateFormValue c name v s1
  | .checkbox v checked =>
      updateFormValue c name (checkboxNewValue c s1 name v checked) s1
  | .radio v => updateFormValue c name (.vStr v) s1
  | .selectMultiple sels =>
      updateFormValue c name (.vArr (sels.map JSPrim.pStr)) s1
  | .textLike v => updateFormValue c name (.vStr v) s1

/-- The `onBlur` handler from `register`: mark touched, mark modified,
then run validation. -/
def onBlur (c : FormConfig) (name : String) (s : FormState) : FormState :=
  let s1 := { s with touched := addKey name s.touched,
                     modified := addKey name s.modified }
  (validateRun c s1).1

/-- The element-attach callback from `register` (`setupInputElement`):
records the key in the registered set; the DOM-node mutations have no
effect on hook state. -/
def registerRef (name : String) (s : FormState) : FormState :=
  { s with registered := addKey name s.registered }

/-- Source `reset`: clear the live store, clear the registered and
modified sets, clear errors and touched, unset the dirty flag (the DOM
sweep in the source mutates only document nodes, never hook state). -/
def reset (c : FormConfig) (s : FormState) : FormState :=
  let s1 :=
    if c.controlled then { s with valuesState := [] }
    else { s with formRef := [] }
  { s1 with registered := [], modified := [], errors := [],
            touched := [], isDirty := false }

/-- Outcome of one run of a `handleSubmit(onSubmit)` handler: whether the
native default action was suppressed, the state after the embedded
validation, the snapshot the callback was invoked with (when it was
invoked at all), and the error the callback raised (when it raised one),
which the handler re-raises to its caller. -/
structure SubmitOutcome where
  prevented : Bool
  state : FormState
  callbackArg : Option Obj
  thrown : Option String
deriving DecidableEq

/-- Source `handleSubmit`: `e.preventDefault()`, await `validate()`, and
only on success invoke the callback with `getCurrentValues()`; a callback
error is not caught locally. -/
def handleSubmitRun (c : FormConfig) (onSubmit : Obj → Except String Unit)
    (s : FormState) : SubmitOutcome :=
  let vr := validateRun c s
  if vr.2 then
    let submissionValues := getCurrentValues c vr.1
    match onSubmit submissionValues with
    | .ok _ => ⟨true, vr.1, some submissionValues, none⟩
    | .error err => ⟨true, vr.1, some submissionValues, some err⟩
  else ⟨true, vr.1, none, none⟩

/-- The operations the rendering layer can invoke on the hook. -/
inductive FormOp where
  | opSetValue (name : String) (v : JSValue)
  | opChange (name : String) (e : InputEvent)
  | opBlur (name : String)
  | opValidate
  | opRegister (name : String)
  | opReset
  | opSubmit (onSubmit : Obj → Except String Unit)

def applyOp (c : FormConfig) (s : FormState) : FormOp → FormState
  | .opSetValue n v => setValue c n v s
  | .opChange n e => handleInputChange c n e s
  | .opBlur n => onBlur c n s
  | .opValidate => (validateRun c s).1
  | .opRegister n => registerRef n s
  | .opReset => reset c s
  | .opSubmit cb => (handleSubmitRun c cb s).state

/-- A whole session: the operations applied in order from the initial state. -/
def runOps (c : FormConfig) (ops : List FormOp) : FormState :=
  ops.foldl (applyOp c) initState

/-- The externally visible `isValid`: `Object.keys(errors).length === 0`. -/
def isValidFlag (s : FormState) : Bool :=
  s.errors.isEmpty

theorem lookup_mergeModified (raw : Obj) (modified : List String) (base : Obj)
    (k : String) :
    Obj.lookup (mergeModified raw modified base) k =
      if k ∈ modified then some (raw.get k) else Obj.lookup base k := by
  induction modified generalizing base with
  | nil => simp [mergeModified]
  | cons m ms ih =>
    simp only [mergeModified, List.foldl_cons] at *
    rw [ih]
    by_cases hms : k ∈ ms
    · simp [hms, List.mem_cons]
    · by_cases hmk : k = m
      · subst hmk
        simp [hms, Obj.set, Obj.lookup, List.mem_cons]
      · have hkm : ¬ m = k := fun h => hmk h.symm
        simp [hms, hmk, hkm, Obj.set, Obj.lookup, List.mem_cons]

theorem lookup_append (a b : Obj) (k : String) :
    Obj.lookup (a ++ b) k = (Obj.lookup a k).or (Obj.lookup b k) := by
  induction a with
  | nil => simp [Obj.lookup]
  | cons p rest ih =>
    by_cases h : p.1 = k
    · simp [Obj.lookup, h]
    · simp [Obj.lookup, h, ih]

theorem lookup_merge (a b : Obj) (k : String) :
    Obj.lookup (Obj.merge a b) k = (Obj.lookup b k).or (Obj.lookup a k) := by
  simp [Obj.merge, lookup_append]

/-- The characteristic equation of the snapshot: a modified key reads its
raw-store value (as member access, so `undefined` when unwritten); an
unmodified key reads the raw store if present, else the defaults. -/
theorem lookup_getCurrentValues (c : FormConfig) (s : FormState) (k : String) :
    Obj.lookup (getCurrentValues c s) k =
      if k ∈ s.modified then some (Obj.get (rawStore c s) k)
      else (Obj.lookup (rawStore c s) k).or (Obj.lookup c.defaultValues k) := by
  rw [getCurrentValues, lookup_mergeModified, lookup_merge]

theorem mem_addKey_iff (k m : String) (l : List String) :
    k ∈ addKey m l ↔ k ∈ l ∨ k = m := by
  unfold addKey
  by_cases h : m ∈ l
  · simp only [if_pos h]
    constructor
    · exact Or.inl
    · rintro (h1 | rfl)
      · exact h1
      · exact h
  · simp [if_neg h, List.mem_append]

theorem mem_addKey_self (m : String) (l : List String) : m ∈ addKey m l :=
  (mem_addKey_iff m m l).mpr (Or.inr rfl)

theorem rawStore_updateFormValue (c : FormConfig) (name : String)
    (v : JSValue) (s : FormState) :
    rawStore c (updateFormValue c name v s) = (rawStore c s).set name v := by
  unfold rawStore updateFormValue
  by_cases h : c.controlled <;> simp [h]

theorem modified_updateFormValue (c : FormConfig) (name : String)
    (v : JSValue) (s : FormState) :
    (updateFormValue c name v s).modified = addKey name s.modified := by
  unfold updateFormValue
  by_cases h : c.controlled <;> simp [h]

theorem errors_updateFormValue (c : FormConfig) (name : String)
    (v : JSValue) (s : FormState) :
    (updateFormValue c name v s).errors = s.errors := by
  unfold updateFormValue
  by_cases h : c.controlled <;> simp [h]

theorem isDirty_updateFormValue (c : FormConfig) (name : String)
    (v : JSValue) (s : FormState) :
    (updateFormValue c name v s).isDirty = true := by
  unfold updateFormValue
  by_cases h : c.controlled <;> simp [h]

theorem validateRun_valuesState (c : FormConfig) (s : FormState) :
    (validateRun c s).1.valuesState = s.valuesState := by
  unfold validateRun
  cases c.validator <;> simp

theorem validateRun_formRef (c : FormConfig) (s : FormState) :
    (validateRun c s).1.formRef = s.formRef := by
  unfold validateRun
  cases c.validator <;> simp

theorem validateRun_modified (c : FormConfig) (s : FormState) :
    (validateRun c s).1.modified = s.modified := by
  unfold validateRun
  cases c.validator <;> simp

theorem validateRun_registered (c : FormConfig) (s : FormState) :
    (validateRun c s).1.registered = s.registered := by
  unfold validateRun
  cases c.validator <;> simp

theorem validateRun_touched (c : FormConfig) (s : FormState) :
    (validateRun c s).1.touched = s.touched := by
  unfold validateRun
  cases c.validator <;> simp

theorem validateRun_isDirty (c : FormConfig) (s : FormState) :
    (validateRun c s).1.isDirty = s.isDirty := by
  unfold validateRun
  cases c.validator <;> simp

theorem rawStore_validateRun (c : FormConfig) (s : FormState) :
    rawStore c (validateRun c s).1 = rawStore c s := by
  unfold rawStore
  rw [validateRun_valuesState, validateRun_formRef]

theorem handleSubmitRun_state (c : FormConfig)
    (cb : Obj → Except String Unit) (s : FormState) :
    (handleSubmitRun c cb s).state = (validateRun c s).1 := by
  simp only [handleSubmitRun]
  split
  · split <;> rfl
  · rfl

/-- C1: the merged snapshot `getCurrentValues` obeys the three-level
precedence — a modified key reads its raw-store value (even when that
value is empty, false, an empty array, or an unwritten `undefined`), an
unmodified key present in the raw store reads the raw store, and any
other key reads the default — and the snapshot has a key exactly when
the defaults, the raw store, or the modified set mention it. -/
theorem snapshot_precedence (c : FormConfig) (s : FormState) (k : String) :
    Obj.lookup (getCurrentValues c s) k =
      (if k ∈ s.modified then some (Obj.get (rawStore c s) k)
       else (Obj.lookup (rawStore c s) k).or (Obj.lookup c.defaultValues k))
    ∧ Obj.hasKey (getCurrentValues c s) k =
      (Obj.hasKey c.defaultValues k || Obj.hasKey (rawStore c s) k
        || decide (k ∈ s.modified)) := by
  refine ⟨lookup_getCurrentValues c s k, ?_⟩
  unfold Obj.hasKey
  rw [lookup_getCurrentValues c s k]
  by_cases h : k ∈ s.modified
  · simp [h]
  · simp only [h, if_neg, decide_eq_true_eq, Option.isSome_or]
    simp [h, Bool.or_comm]

/-- C2: after `reset()` from any state, the next snapshot is exactly the
default-value map, the error and touched maps are empty, the modified and
registered sets are empty, and the dirty flag is false. -/
theorem reset_restores_defaults (c : FormConfig) (s : FormState) :
    getCurrentValues c (reset c s) = c.defaultValues
    ∧ (reset c s).errors = []
    ∧ (reset c s).touched = []
    ∧ (reset c s).modified = []
    ∧ (reset c s).registered = []
    ∧ (reset c s).isDirty = false := by
  unfold reset getCurrentValues mergeModified rawStore Obj.merge
  by_cases h : c.controlled <;> simp [h]

/-- C5: `validate()` returns true when no validator is configured;
otherwise it calls the validator on the merged snapshot, replaces the
error map wholesale with the validator's result, and returns true iff
that result is empty. -/
theorem validate_contract (dv : Obj) (ctrl : Bool) (f : Obj → ErrMap)
    (s : FormState) :
    validateRun ⟨dv, none, ctrl⟩ s = (s, true)
    ∧ validateRun ⟨dv, some f, ctrl⟩ s =
        ({ s with errors := f (getCurrentValues ⟨dv, some f, ctrl⟩ s) },
         (f (getCurrentValues ⟨dv, some f, ctrl⟩ s)).isEmpty)
    ∧ ((validateRun ⟨dv, some f, ctrl⟩ s).2 = true ↔
        f (getCurrentValues ⟨dv, some f, ctrl⟩ s) = []) := by
  refine ⟨rfl, rfl, ?_⟩
  simp [validateRun, List.isEmpty_iff]

/-- C6: `setValue(k, v)` adds `k` to the modified set, sets the dirty
flag, writes `v` into the live store, changes the snapshot at `k` to `v`
and leaves the snapshot value of every other key unchanged; concretely,
with defaults mapping name to "Ann" and tags to ["x"], setValue of an
empty string at name yields the snapshot with name empty and tags still
["x"], and `isDirty` true. -/
theorem setValue_frame (c : FormConfig) (s : FormState)
    (name : String) (v : JSValue) :
    name ∈ (setValue c name v s).modified
    ∧ (setValue c name v s).isDirty = true
    ∧ Obj.lookup (rawStore c (setValue c name v s)) name = some v
    ∧ (∀ k, Obj.lookup (getCurrentValues c (setValue c name v s)) k =
        if k = name then some v
        else Obj.lookup (getCurrentValues c s) k)
    ∧ Obj.lookup
        (getCurrentValues
          ⟨[("name", .vStr "Ann"), ("tags", .vArr [.pStr "x"])], none, false⟩
          (setValue
            ⟨[("name", .vStr "Ann"), ("tags", .vArr [.pStr "x"])], none, false⟩
            "name" (.vStr "") initState)) "name" = some (.vStr "")
    ∧ Obj.lookup
        (getCurrentValues
          ⟨[("name", .vStr "Ann"), ("tags", .vArr [.pStr "x"])], none, false⟩
          (setValue
            ⟨[("name", .vStr "Ann"), ("tags", .vArr [.pStr "x"])], none, false⟩
            "name" (.vStr "") initState)) "tags" = some (.vArr [.pStr "x"])
    ∧ (setValue
        ⟨[("name", .vStr "Ann"), ("tags", .vArr [.pStr "x"])], none, false⟩
        "name" (.vStr "") initState).isDirty = true := by
  refine ⟨?_, ?_, ?_, ?_, by decide, by decide, by decide⟩
  · rw [setValue, modified_updateFormValue]
    exact mem_addKey_self name s.modified
  · rw [setValue]
    exact isDirty_updateFormValue c name v s
  · rw [setValue, rawStore_updateFormValue]
    simp [Obj.set, Obj.lookup]
  · intro k
    rw [lookup_getCurrentValues, lookup_getCurrentValues, setValue,
      modified_updateFormValue, rawStore_updateFormValue]
    by_cases hk : k = name
    · subst hk
      simp [mem_addKey_self, Obj.get, Obj.set, Obj.lookup]
    · have hnk : ¬ name = k := fun h => hk h.symm
      have h1 : (k ∈ addKey name s.modified) = (k ∈ s.modified) := by
        rw [eq_iff_iff, mem_addKey_iff]
        simp [hk]
      have h2 : Obj.lookup ((rawStore c s).set name v) k
          = Obj.lookup (rawStore c s) k := by
        simp [Obj.set, Obj.lookup, hnk]
      have h3 : Obj.get ((rawStore c s).set name v) k
          = Obj.get (rawStore c s) k := by
        simp [Obj.get, h2]
      simp [hk, h1, h2, h3]

/-- C7: the exposed `isValid` flag is true iff the error map is empty:
true in the initial state, equal to validate's returned result after any
validation run, and untouched by every operation other than validate and
reset (reset clears the error map, making it true again). -/
theorem isValid_iff_errors_empty (dv : Obj) (ctrl : Bool) (f : Obj → ErrMap)
    (c : FormConfig) (s : FormState) (n : String) (v : JSValue)
    (e : InputEvent) :
    (isValidFlag s = true ↔ s.errors = [])
    ∧ isValidFlag initState = true
    ∧ isValidFlag (validateRun ⟨dv, some f, ctrl⟩ s).1 =
        (validateRun ⟨dv, some f, ctrl⟩ s).2
    ∧ (validateRun ⟨dv, none, ctrl⟩ s).1.errors = s.errors
    ∧ (updateFormValue c n v s).errors = s.errors
    ∧ (handleInputChange c n e s).errors = s.errors
    ∧ (registerRef n s).errors = s.errors
    ∧ (reset c s).errors = [] := by
  refine ⟨by simp [isValidFlag, List.isEmpty_iff], rfl, ?_, rfl,
    errors_updateFormValue c n v s, ?_, rfl, ?_⟩
  · simp [validateRun, isValidFlag]
  · cases e <;> simp [handleInputChange, errors_updateFormValue]
  · unfold reset
    by_cases h : c.controlled <;> simp [h]

/-- C8: the dirty flag starts false, every `setValue` or input change
sets it true, `reset` sets it false, and no other operation (blur,
validate, register, submit) ever changes it — in particular nothing but
reset can set it back to false. -/
theorem dirty_flag_transitions (c : FormConfig) (op : FormOp) (s : FormState) :
    initState.isDirty = false
    ∧ (applyOp c s op).isDirty =
        (match op with
         | .opSetValue _ _ => true
         | .opChange _ _ => true
         | .opReset => false
         | _ => s.isDirty) := by
  refine ⟨rfl, ?_⟩
  cases op with
  | opSetValue n v => exact isDirty_updateFormValue c n v s
  | opChange n e =>
      cases e <;> simp [applyOp, handleInputChange, isDirty_updateFormValue]
  | opBlur n => simp [applyOp, onBlur, validateRun_isDirty]
  | opValidate => exact validateRun_isDirty c s
  | opRegister n => rfl
  | opReset =>
      unfold applyOp reset
      by_cases h : c.controlled <;> simp [h]
  | opSubmit cb =>
      rw [applyOp, handleSubmitRun_state]
      exact validateRun_isDirty c s

theorem filter_ne_of_not_mem {α : Type} [DecidableEq α] (l : List α) (v : α)
    (h : v ∉ l) : l.filter (fun x => x ≠ v) = l := by
  induction l with
  | nil => rfl
  | cons a as ih =>
    rw [List.mem_cons, not_or] at h
    have ha : (decide (a ≠ v)) = true := by
      simp [Ne.symm h.1]
    rw [List.filter_cons, if_pos ha, ih h.2]

theorem lookup_rawStore_checkbox (c : FormConfig) (s : FormState)
    (name v : String) (checked : Bool) :
    Obj.lookup (rawStore c (handleInputChange c name (.checkbox v checked) s)) name
      = some (checkboxNewValue c { s with modified := addKey name s.modified }
          name v checked) := by
  simp only [handleInputChange]
  rw [rawStore_updateFormValue]
  simp [Obj.set, Obj.lookup]

theorem checkboxNewValue_group (c : FormConfig) (s1 : FormState)
    (name v : String) (checked : Bool) (arr0 : List JSPrim)
    (h : Obj.get (getCurrentValues c s1) name = .vArr arr0
       ∨ (isArray (Obj.get (getCurrentValues c s1) name) = false
          ∧ Obj.get c.defaultValues name = .vArr arr0)) :
    checkboxNewValue c s1 name v checked =
      .vArr (if checked then
               (if JSPrim.pStr v ∈ arr0 then arr0 else arr0 ++ [JSPrim.pStr v])
             else arr0.filter (fun x => x ≠ JSPrim.pStr v)) := by
  simp only [checkboxNewValue]
  rcases h with h | ⟨hna, hd⟩
  · rw [h]
    simp [isArray]
  · rw [hd]
    cases hc : Obj.get (getCurrentValues c s1) name <;> simp_all [isArray]

/-- C3: for a checkbox-group field (one whose default value or current
value is an array), a change event with checked=true stores the current
array with the token appended only when it is absent (checking an
already-present token leaves the array unchanged, so no duplicates), and
a change event with checked=false stores the array with every occurrence
of the token removed (unchecking an absent token leaves the array
unchanged). -/
theorem checkbox_group_toggle (c : FormConfig) (s : FormState)
    (name v : String) (arr0 : List JSPrim)
    (h : Obj.get (getCurrentValues c
          { s with modified := addKey name s.modified }) name = .vArr arr0
       ∨ (isArray (Obj.get (getCurrentValues c
            { s with modified := addKey name s.modified }) name) = false
          ∧ Obj.get c.defaultValues name = .vArr arr0)) :
    (JSPrim.pStr v ∈ arr0 →
      Obj.lookup (rawStore c (handleInputChange c name (.checkbox v true) s)) name
        = some (.vArr arr0))
    ∧ (JSPrim.pStr v ∉ arr0 →
      Obj.lookup (rawStore c (handleInputChange c name (.checkbox v true) s)) name
        = some (.vArr (arr0 ++ [JSPrim.pStr v])))
    ∧ Obj.lookup (rawStore c (handleInputChange c name (.checkbox v false) s)) name
        = some (.vArr (arr0.filter (fun x => x ≠ JSPrim.pStr v)))
    ∧ (JSPrim.pStr v ∉ arr0 →
      Obj.lookup (rawStore c (handleInputChange c name (.checkbox v false) s)) name
        = some (.vArr arr0)) := by
  have k1 := lookup_rawStore_checkbox c s name v true
  have k2 := lookup_rawStore_checkbox c s name v false
  rw [checkboxNewValue_group c _ name v true arr0 h] at k1
  rw [checkboxNewValue_group c _ name v false arr0 h] at k2
  refine ⟨fun hm => ?_, fun hm => ?_, ?_, fun hm => ?_⟩
  · rw [k1, if_pos rfl, if_pos hm]
  · rw [k1, if_pos rfl, if_neg hm]
  · rw [k2, if_neg Bool.false_ne_true]
  · rw [k2, if_neg Bool.false_ne_true,
      filter_ne_of_not_mem arr0 (JSPrim.pStr v) hm]

/-- Concrete instance of `checkbox_group_toggle`: with the default for
interests being the array ["music"] and the field never written, the
group hypothesis holds and checking the absent token "art" appends it. -/
theorem checkbox_group_toggle_witness :
    (Obj.get (getCurrentValues
        ⟨[("interests", JSValue.vArr [JSPrim.pStr "music"])], none, false⟩
        { initState with modified := addKey "interests" initState.modified })
        "interests" = JSValue.vArr [JSPrim.pStr "music"]
      ∨ (isArray (Obj.get (getCurrentValues
          ⟨[("interests", JSValue.vArr [JSPrim.pStr "music"])], none, false⟩
          { initState with modified := addKey "interests" initState.modified })
          "interests") = false
        ∧ Obj.get [("interests", JSValue.vArr [JSPrim.pStr "music"])] "interests"
            = JSValue.vArr [JSPrim.pStr "music"]))
    ∧ Obj.lookup (rawStore
        ⟨[("interests", JSValue.vArr [JSPrim.pStr "music"])], none, false⟩
        (handleInputChange
          ⟨[("interests", JSValue.vArr [JSPrim.pStr "music"])], none, false⟩
          "interests" (.checkbox "art" true) initState)) "interests"
      = some (JSValue.vArr [JSPrim.pStr "music", JSPrim.pStr "art"]) := by
  refine ⟨by decide, ?_⟩
  have h := checkbox_group_toggle
    ⟨[("interests", JSValue.vArr [JSPrim.pStr "music"])], none, false⟩
    initState "interests" "art" [JSPrim.pStr "music"] (by decide)
  exact h.2.1 (by decide)

/-- C4: a `handleSubmit(cb)` handler suppresses the native default
action, runs validate, and invokes `cb` with the merged snapshot exactly
when validation succeeded; an error raised by `cb` is re-raised to the
handler's caller with no local recovery; concretely, when the validator
always returns the map sending email to "required", `cb` is never
invoked and the stored error for email is "required". -/
theorem handleSubmit_contract (c : FormConfig) (cb : Obj → Except String Unit)
    (s : FormState) :
    (handleSubmitRun c cb s).prevented = true
    ∧ (handleSubmitRun c cb s).state = (validateRun c s).1
    ∧ (handleSubmitRun c cb s).callbackArg =
        (if (validateRun c s).2 then some (getCurrentValues c (validateRun c s).1)
         else none)
    ∧ (handleSubmitRun c cb s).thrown =
        (match (handleSubmitRun c cb s).callbackArg with
         | some a =>
             (match cb a with
              | .ok _ => none
              | .error err => some err)
         | none => none)
    ∧ (handleSubmitRun ⟨[], some (fun _ => [("email", "required")]), false⟩
        cb initState).callbackArg = none
    ∧ errLookup (handleSubmitRun ⟨[], some (fun _ => [("email", "required")]), false⟩
        cb initState).state.errors "email" = some "required" := by
  refine ⟨?_, handleSubmitRun_state c cb s, ?_, ?_, rfl, rfl⟩
  · simp only [handleSubmitRun]
    split
    · split <;> rfl
    · rfl
  · simp only [handleSubmitRun]
    by_cases hv : (validateRun c s).2 = true
    · simp only [hv, if_true]
      rcases hcb : cb (getCurrentValues c (validateRun c s).1) with u | err <;>
        simp [hcb]
    · simp [hv]
  · simp only [handleSubmitRun]
    by_cases hv : (validateRun c s).2 = true
    · simp only [hv, if_true]
      rcases hcb : cb (getCurrentValues c (validateRun c s).1) with u | err <;>
        simp [hcb]
    · simp [hv]

/-- C9: blurring a registered field that has a default value but was
never written adds the key to the modified set without writing the raw
store, so while the snapshot before the blur still showed the default,
the snapshot after the blur maps the key to `undefined`. -/
theorem blur_drops_default (c : FormConfig) (s : FormState) (name : String)
    (hreg : name ∈ s.registered) (hmod : name ∉ s.modified)
    (hraw : Obj.lookup (rawStore c s) name = none)
    (hdef : Obj.hasKey c.defaultValues name = true) :
    Obj.lookup (getCurrentValues c s) name = Obj.lookup c.defaultValues name
    ∧ rawStore c (onBlur c name s) = rawStore c s
    ∧ name ∈ (onBlur c name s).modified
    ∧ name ∈ (onBlur c name s).touched
    ∧ Obj.lookup (getCurrentValues c (onBlur c name s)) name
        = some JSValue.vUndefined := by
  have hstore : rawStore c (onBlur c name s) = rawStore c s := by
    simp only [onBlur]
    rw [rawStore_validateRun]
    unfold rawStore
    rfl
  have hmem : name ∈ (onBlur c name s).modified := by
    simp only [onBlur]
    rw [validateRun_modified]
    exact mem_addKey_self name s.modified
  refine ⟨?_, hstore, hmem, ?_, ?_⟩
  · rw [lookup_getCurrentValues]
    simp [hmod, hraw]
  · simp only [onBlur]
    rw [validateRun_touched]
    exact mem_addKey_self name s.touched
  · rw [lookup_getCurrentValues]
    rw [if_pos hmem, hstore]
    simp [Obj.get, hraw]

/-- Concrete instance of `blur_drops_default`: defaults map name to
"Ann", the field is registered and never written; after the blur the
snapshot shows `undefined` at name. -/
theorem blur_drops_default_witness :
    ("name" ∈ (registerRef "name" initState).registered
      ∧ "name" ∉ (registerRef "name" initState).modified
      ∧ Obj.lookup (rawStore ⟨[("name", JSValue.vStr "Ann")], none, false⟩
          (registerRef "name" initState)) "name" = none
      ∧ Obj.hasKey [("name", JSValue.vStr "Ann")] "name" = true)
    ∧ Obj.lookup (getCurrentValues ⟨[("name", JSValue.vStr "Ann")], none, false⟩
        (onBlur ⟨[("name", JSValue.vStr "Ann")], none, false⟩ "name"
          (registerRef "name" initState))) "name" = some JSValue.vUndefined := by
  refine ⟨by decide, ?_⟩
  have h := blur_drops_default ⟨[("name", JSValue.vStr "Ann")], none, false⟩
    (registerRef "name" initState) "name" (by decide) (by decide) (by decide)
    (by decide)
  exact h.2.2.2.2

/-- Correspondence between a controlled-mode state and an
uncontrolled-mode state: the live store of the first (the React state
cell) equals the live store of the second (the ref cell) and every other
cell agrees. -/
abbrev mirror (s t : FormState) : Prop :=
  s.valuesState = t.formRef ∧ s.modified = t.modified
  ∧ s.registered = t.registered ∧ s.errors = t.errors
  ∧ s.touched = t.touched ∧ s.isDirty = t.isDirty

theorem getCurrentValues_mirror (dv : Obj) (va : Option (Obj → ErrMap))
    (s t : FormState) (h : mirror s t) :
    getCurrentValues ⟨dv, va, true⟩ s = getCurrentValues ⟨dv, va, false⟩ t := by
  obtain ⟨h1, h2, _, _, _, _⟩ := h
  unfold getCurrentValues rawStore
  simp [h1, h2]

theorem updateFormValue_mirror (dv : Obj) (va : Option (Obj → ErrMap))
    (n : String) (v : JSValue) (s t : FormState) (h : mirror s t) :
    mirror (updateFormValue ⟨dv, va, true⟩ n v s)
      (updateFormValue ⟨dv, va, false⟩ n v t) := by
  obtain ⟨h1, h2, h3, h4, h5, h6⟩ := h
  unfold updateFormValue
  refine ⟨?_, ?_, ?_, ?_, ?_, ?_⟩ <;> simp [h1, h2, h3, h4, h5, h6]

theorem validateRun_mirror (dv : Obj) (va : Option (Obj → ErrMap))
    (s t : FormState) (h : mirror s t) :
    mirror (validateRun ⟨dv, va, true⟩ s).1 (validateRun ⟨dv, va, false⟩ t).1
    ∧ (validateRun ⟨dv, va, true⟩ s).2 = (validateRun ⟨dv, va, false⟩ t).2 := by
  have hsnap := getCurrentValues_mirror dv va s t h
  obtain ⟨h1, h2, h3, h4, h5, h6⟩ := h
  unfold validateRun
  cases va with
  | none => exact ⟨⟨h1, h2, h3, h4, h5, h6⟩, rfl⟩
  | some f =>
    exact ⟨⟨h1, h2, h3, by rw [hsnap], h5, h6⟩, by rw [hsnap]⟩

theorem checkboxNewValue_mirror (dv : Obj) (va : Option (Obj → ErrMap))
    (n v : String) (checked : Bool) (s t : FormState) (h : mirror s t) :
    checkboxNewValue ⟨dv, va, true⟩ s n v checked
      = checkboxNewValue ⟨dv, va, false⟩ t n v checked := by
  unfold checkboxNewValue
  rw [getCurrentValues_mirror dv va s t h]

theorem markModified_mirror (n : String) (s t : FormState) (h : mirror s t) :
    mirror { s with modified := addKey n s.modified }
      { t with modified := addKey n t.modified } := by
  obtain ⟨h1, h2, h3, h4, h5, h6⟩ := h
  exact ⟨h1, by rw [h2], h3, h4, h5, h6⟩

theorem applyOp_mirror (dv : Obj) (va : Option (Obj → ErrMap))
    (op : FormOp) (s t : FormState) (h : mirror s t) :
    mirror (applyOp ⟨dv, va, true⟩ s op) (applyOp ⟨dv, va, false⟩ t op) := by
  have hcopy := h
  obtain ⟨h1, h2, h3, h4, h5, h6⟩ := h
  cases op with
  | opSetValue n v => exact updateFormValue_mirror dv va n v s t hcopy
  | opChange n e =>
    have hm := markModified_mirror n s t hcopy
    cases e with
    | direct v => exact updateFormValue_mirror dv va n v _ _ hm
    | checkbox v chk =>
      simp only [applyOp, handleInputChange]
      rw [checkboxNewValue_mirror dv va n v chk _ _ hm]
      exact updateFormValue_mirror dv va n _ _ _ hm
    | radio v => exact updateFormValue_mirror dv va n _ _ _ hm
    | selectMultiple sels => exact updateFormValue_mirror dv va n _ _ _ hm
    | textLike v => exact updateFormValue_mirror dv va n _ _ _ hm
  | opBlur n =>
    have hm : mirror
        { s with touched := addKey n s.touched, modified := addKey n s.modified }
        { t with touched := addKey n t.touched, modified := addKey n t.modified } :=
      ⟨h1, by rw [h2], h3, h4, by rw [h5], h6⟩
    exact (validateRun_mirror dv va _ _ hm).1
  | opValidate => exact (validateRun_mirror dv va s t hcopy).1
  | opRegister n =>
    refine ⟨?_, ?_, ?_, ?_, ?_, ?_⟩ <;>
      simp [applyOp, registerRef, h1, h2, h3, h4, h5, h6]
  | opReset =>
    unfold applyOp reset
    refine ⟨?_, ?_, ?_, ?_, ?_, ?_⟩ <;> simp
  | opSubmit cb =>
    simp only [applyOp]
    rw [handleSubmitRun_state, handleSubmitRun_state]
    exact (validateRun_mirror dv va s t hcopy).1

/-- C10: for every sequence of operations, the merged snapshot after
running it with `controlled=true` (React-state store) equals the
snapshot after running it with `controlled=false` (ref-cell store): the
two storage modes are observationally equivalent at the value-snapshot
interface. -/
theorem controlled_uncontrolled_equiv (dv : Obj) (va : Option (Obj → ErrMap))
    (ops : List FormOp) :
    getCurrentValues ⟨dv, va, true⟩ (runOps ⟨dv, va, true⟩ ops)
      = getCurrentValues ⟨dv, va, false⟩ (runOps ⟨dv, va, false⟩ ops) := by
  have main : ∀ (l : List FormOp) (s t : FormState), mirror s t →
      mirror (l.foldl (applyOp ⟨dv, va, true⟩) s)
        (l.foldl (applyOp ⟨dv, va, false⟩) t) := by
    intro l
    induction l with
    | nil => exact fun s t h => h
    | cons op rest ih =>
      exact fun s t h => ih _ _ (applyOp_mirror dv va op s t h)
  exact getCurrentValues_mirror dv va _ _
    (main ops initState initState ⟨rfl, rfl, rfl, rfl, rfl, rfl⟩)
